import Mathlib

/-!
# Verification of the auth core of `enterprise-rag-platform-be`

Shallow embedding of the authentication/authorization core:

* `AuthService` (token signing, `issueTokens`, `rotateRefreshToken`,
  `revokeRefreshToken`, `revokeAllUserTokens`),
* `AutoRefreshGuard` (auto-refresh interception with a single-flight map),
* the two `PermissionsGuard` variants (DB-query and token-claims).

Modelling conventions:

* Timestamps are `Nat` (milliseconds-like); `new Date()` becomes an explicit
  `now` parameter.
* A refresh-token JWT is a `RefreshTok` record of its claims plus a `sigOk`
  flag saying whether its signature verifies under the refresh secret.
  `jsonwebtoken`'s `verify` (without `ignoreExpiration`) succeeds iff the
  signature is good and the token is not yet expired.
* bcrypt hashing of the refresh-token plaintext is modelled by storing the
  plaintext-determined value itself as the hash: `bcrypt.compare(tok, h)`
  succeeds iff `h` was produced from exactly that plaintext, so the stored
  hash is represented by the `RefreshTok` it was computed from and
  comparison is equality.
* Prisma calls become pure functions on a `Ledger := List RefreshTokenRecord`
  and on a `RolesDb` of flat relational tables; each call is one atomic step.
-/

/-- Claims of a refresh-token JWT, plus whether its signature verifies under
the refresh secret. `typ` is the `type` claim (`"refresh"` for tokens minted
by `signRefreshToken`). -/
structure RefreshTok where
  sub : String
  typ : String
  iat : Nat
  exp : Nat
  sigOk : Bool
deriving DecidableEq

/-- `jwt.verify` on a refresh token with default options: signature check and
expiry check (expired when `exp ≤ now`). -/
def refreshVerifies (t : RefreshTok) (now : Nat) : Bool :=
  t.sigOk && decide (now < t.exp)

/-- One row of the `refresh_tokens` table. `token_hash` is the bcrypt hash of
the refresh-token plaintext, modelled by the token it hashes (see header). -/
structure RefreshTokenRecord where
  id : Nat
  user_id : String
  token_hash : RefreshTok
  expires_at : Nat
  revoked_at : Option Nat
deriving DecidableEq

/-- The `refresh_tokens` table. -/
abbrev Ledger := List RefreshTokenRecord

/-- `prisma.refresh_tokens.findMany({ where: { user_id, revoked_at: null,
expires_at: { gt: new Date() } } })` — the active records of a subject. -/
def findActiveTokens (l : Ledger) (uid : String) (now : Nat) : List RefreshTokenRecord :=
  l.filter (fun r => r.user_id = uid ∧ r.revoked_at = none ∧ now < r.expires_at)

/-- The `for … bcrypt.compare … break` scan: first record of the snapshot
whose stored hash verifies against the presented plaintext. -/
def matchActive (snapshot : List RefreshTokenRecord) (tok : RefreshTok) :
    Option RefreshTokenRecord :=
  snapshot.find? (fun r => r.token_hash = tok)

/-- `prisma.refresh_tokens.update({ where: { id }, data: { revoked_at: now } })`. -/
def revokeById (l : Ledger) (rid : Nat) (now : Nat) : Ledger :=
  l.map (fun r => if r.id = rid then { r with revoked_at := some now } else r)

/-- `prisma.refresh_tokens.create` — appends the new row. -/
def insertRecord (l : Ledger) (r : RefreshTokenRecord) : Ledger :=
  l ++ [r]

/-- The reuse-detection `updateMany({ where: { user_id }, data: { revoked_at:
now } })` — note: no `revoked_at: null` filter, every row of the subject is
written. -/
def revokeAllRows (l : Ledger) (uid : String) (now : Nat) : Ledger :=
  l.map (fun r => if r.user_id = uid then { r with revoked_at := some now } else r)

/-- `revokeAllUserTokens`'s `updateMany({ where: { user_id, revoked_at: null },
data: { revoked_at: now } })` — only active rows are written. -/
def revokeAllActiveRows (l : Ledger) (uid : String) (now : Nat) : Ledger :=
  l.map (fun r =>
    if r.user_id = uid ∧ r.revoked_at = none then { r with revoked_at := some now } else r)

/-! ## Role / permission tables (Credential Store, read-only) -/

/-- A row of `roles`. -/
structure RoleRec where
  id : Nat
  name : String
deriving DecidableEq

/-- A row of `permissions`. -/
structure PermissionRec where
  id : Nat
  code : String
deriving DecidableEq

/-- A row of `user_roles`. -/
structure UserRoleRec where
  user_id : String
  role_id : Nat
deriving DecidableEq

/-- A row of `role_permissions`. -/
structure RolePermissionRec where
  role_id : Nat
  permission_id : Nat
deriving DecidableEq

/-- The relational tables the Permission Resolver reads. -/
structure RolesDb where
  roles : List RoleRec
  permissions : List PermissionRec
  user_roles : List UserRoleRec
  role_permissions : List RolePermissionRec
deriving DecidableEq

/-- The `user_roles.findMany({ where: { user_id }, include: { roles: {
include: { role_permissions: { include: { permissions } } } } } })` join of
`rotateRefreshToken`: each of the user's role rows with its role and that
role's permission codes. The `if (p.permissions?.code)` truthiness guard of
the source drops a missing relation and an empty code string. -/
def userRolesJoined (db : RolesDb) (uid : String) : List (RoleRec × List String) :=
  (db.user_roles.filter (fun ur => ur.user_id = uid)).filterMap (fun ur =>
    (db.roles.find? (fun r => r.id = ur.role_id)).map (fun r =>
      (r, (db.role_permissions.filter (fun rp => rp.role_id = r.id)).filterMap (fun rp =>
        match db.permissions.find? (fun pm => pm.id = rp.permission_id) with
        | some pm => if pm.code = "" then none else some pm.code
        | none => none))))

/-- `permissionsSet.add` / `Array.from(permissionsSet)`: fold the collected
codes left to right, keeping the first occurrence of each. -/
def addUnique (acc : List String) (x : String) : List String :=
  if x ∈ acc then acc else acc ++ [x]

/-- The role names `userRoles.map((r) => r.roles.name)`. -/
def rolesOfUser (db : RolesDb) (uid : String) : List String :=
  (userRolesJoined db uid).map (fun x => x.1.name)

/-- The deduplicated permission codes collected by `rotateRefreshToken`. -/
def permissionsOfUser (db : RolesDb) (uid : String) : List String :=
  ((userRolesJoined db uid).flatMap (fun x => x.2)).foldl addUnique []

/-! ## Rotation -/

/-- Claims of an access token minted by `signAccessToken`. -/
structure AccessClaims where
  sub : String
  roles : List String
  permissions : List String
  iat : Nat
  exp : Nat
deriving DecidableEq

/-- The pair returned by `issueTokens` / `rotateRefreshToken`. -/
structure RotatePair where
  access : AccessClaims
  refresh : RefreshTok
deriving DecidableEq

/-- The `UnauthorizedException`s `rotateRefreshToken` can throw. -/
inductive RotateError
  | invalidToken
  | invalidTokenType
  | reuseDetected
deriving DecidableEq

/-- One ledger access performed by a prisma call on `refresh_tokens`. -/
inductive LedgerOp
  | read
  | write
deriving DecidableEq

/-- Per-call context: the configured TTLs, the wall clock of the call, and
the `randomUUID` drawn for the record a successful rotation will create. -/
structure RotateCtx where
  now : Nat
  freshRecId : Nat
  accessTtl : Nat
  refreshTtl : Nat
deriving DecidableEq

instance {α β : Type} [DecidableEq α] [DecidableEq β] : DecidableEq (Except α β) := fun a b =>
  match a, b with
  | .ok x, .ok y =>
      if h : x = y then .isTrue (by rw [h]) else .isFalse (fun hh => h (by cases hh; rfl))
  | .error x, .error y =>
      if h : x = y then .isTrue (by rw [h]) else .isFalse (fun hh => h (by cases hh; rfl))
  | .ok _, .error _ => .isFalse (fun hh => by cases hh)
  | .error _, .ok _ => .isFalse (fun hh => by cases hh)

/-- What a call to `rotateRefreshToken` produces: its return value or thrown
error, the `refresh_tokens` table afterwards, and the ledger accesses it
performed, in order. -/
structure RotateOutput where
  result : Except RotateError RotatePair
  ledger : Ledger
  ops : List LedgerOp
deriving DecidableEq

/-- `signRefreshToken` at time `now`: claims `{ sub, type: "refresh" }`,
expiry `now + refreshTtl`, correctly signed. -/
def signRefreshToken (uid : String) (ctx : RotateCtx) : RefreshTok :=
  { sub := uid, typ := "refresh", iat := ctx.now, exp := ctx.now + ctx.refreshTtl, sigOk := true }

/-- `AuthService.rotateRefreshToken`, step for step:
1. `jwt.verify` under the refresh secret (signature, then expiry) — failure
   throws `Invalid token` before any prisma call;
2. the `type = "refresh"` check — failure throws `Invalid token type`, still
   before any prisma call;
3. `findMany` of the subject's active records and the bcrypt scan;
4. no match: `updateMany` over **all** rows of the subject (reuse detection),
   throw `reuseDetected`;
5. match: revoke that row by id, re-resolve roles and permissions live from
   the role tables, and `issueTokens` (new access claims and a new refresh
   token persisted as a new row). -/
def rotateRefreshToken (l : Ledger) (db : RolesDb) (tok : RefreshTok) (ctx : RotateCtx) :
    RotateOutput :=
  if ¬ refreshVerifies tok ctx.now then
    { result := .error .invalidToken, ledger := l, ops := [] }
  else if tok.typ ≠ "refresh" then
    { result := .error .invalidTokenType, ledger := l, ops := [] }
  else
    match matchActive (findActiveTokens l tok.sub ctx.now) tok with
    | none =>
        { result := .error .reuseDetected
          ledger := revokeAllRows l tok.sub ctx.now
          ops := [.read, .write] }
    | some m =>
        let newRefresh := signRefreshToken tok.sub ctx
        let newRec : RefreshTokenRecord :=
          { id := ctx.freshRecId
            user_id := tok.sub
            token_hash := newRefresh
            expires_at := ctx.now + ctx.refreshTtl
            revoked_at := none }
        { result := .ok
            { access :=
                { sub := tok.sub
                  roles := rolesOfUser db tok.sub
                  permissions := permissionsOfUser db tok.sub
                  iat := ctx.now
                  exp := ctx.now + ctx.accessTtl }
              refresh := newRefresh }
          ledger := insertRecord (revokeById l m.id ctx.now) newRec
          ops := [.read, .write, .write] }

/-- `AuthService.revokeRefreshToken` (logout): `jwt.verify` with default
options (so an expired token is caught and the call silently returns), then
`findMany` of the subject's non-revoked rows (no expiry filter here), then
revoke the first row whose hash verifies, if any. -/
def revokeRefreshToken (l : Ledger) (tok : RefreshTok) (now : Nat) : Ledger :=
  if ¬ refreshVerifies tok now then l
  else
    let tokens := l.filter (fun r => r.user_id = tok.sub ∧ r.revoked_at = none)
    match matchActive tokens tok with
    | none => l
    | some t => revokeById l t.id now

/-- `AuthService.revokeAllUserTokens`. -/
def revokeAllUserTokens (l : Ledger) (uid : String) (now : Nat) : Ledger :=
  revokeAllActiveRows l uid now

/-- Did the rotation call return a pair (as opposed to throwing)? -/
def rotationSucceeded (o : RotateOutput) : Bool :=
  match o.result with
  | .ok _ => true
  | .error _ => false

/-- The Permission Resolver as the spec words it, for comparison with the
code's collection: "union, over every role assigned to the subject, of every
permission code attached to that role. No role → empty set." -/
def permissionsForSpec (db : RolesDb) (uid : String) : List String :=
  (db.roles.filter (fun r =>
      db.user_roles.any (fun ur => ur.user_id = uid ∧ ur.role_id = r.id))).flatMap
    (fun r => (db.permissions.filter (fun pm =>
        db.role_permissions.any (fun rp =>
          rp.role_id = r.id ∧ rp.permission_id = pm.id))).map (fun pm => pm.code))

/-! ## Permission gates (`PermissionsGuard`, both variants) -/

/-- The `userPermissionCodes` of the DB-query `PermissionsGuard`:
`role_permissions.findMany({ where: { roles: { user_roles: { some: {
user_id } } } }, include: { permissions } })` mapped to
`p.permissions.code`. -/
def dbUserPermissionCodes (db : RolesDb) (uid : String) : List String :=
  (db.role_permissions.filter (fun rp =>
      db.user_roles.any (fun ur => ur.user_id = uid ∧ ur.role_id = rp.role_id))).filterMap
    (fun rp => (db.permissions.find? (fun pm => pm.id = rp.permission_id)).map
      (fun pm => pm.code))

/-- The DB-query `PermissionsGuard.canActivate`: `requiredPermissions = none`
models an absent `permissions` decorator (`if (!requiredPermissions) return
true`); otherwise `requiredPermissions.every((p) =>
userPermissionCodes.includes(p))`. -/
def permissionsGuardDb (requiredPermissions : Option (List String)) (db : RolesDb)
    (uid : String) : Bool :=
  match requiredPermissions with
  | none => true
  | some req => req.all (fun p => (dbUserPermissionCodes db uid).contains p)

/-- The token-claims `PermissionsGuard.canActivate`: `required.every((p) =>
user.permissions.includes(p))` over the `permissions` array of the verified
access token. -/
def permissionsGuardToken (requiredPermissions : Option (List String))
    (claims : List String) : Bool :=
  match requiredPermissions with
  | none => true
  | some req => req.all (fun p => claims.contains p)

/-! ## Auto-refresh guard (`AutoRefreshGuard`) -/

/-- An access-token JWT: its claims and whether its signature verifies under
the access secret. -/
structure AccessTok where
  claims : AccessClaims
  sigOk : Bool
deriving DecidableEq

/-- Outcome of `jwt.verify` on the access token: ok, `TokenExpiredError`, or
any other error (invalid signature etc.). -/
inductive VerifyResult
  | ok
  | expired
  | invalidSig
deriving DecidableEq

/-- `jwtService.verify(token, { secret })`: signature first, then expiry. -/
def verifyAccess (t : AccessTok) (now : Nat) : VerifyResult :=
  if ¬ t.sigOk then .invalidSig
  else if t.claims.exp ≤ now then .expired
  else .ok

/-- What the guard did to the `refresh_token` cookie. -/
inductive CookieAction
  | unchanged
  | setTo (tok : RefreshTok)
  | cleared
deriving DecidableEq

/-- Observable outcome of one `AutoRefreshGuard.canActivate` call.
`allowed = false` means the `UnauthorizedException` was thrown. `header`
is the replacement bearer token when the guard rewrote the request, `none`
when the request passes through unchanged. `refreshAttempts` counts calls
to `refreshTokenIfNeeded`, `rotateCalls` calls to the Rotation Protocol
(`performRefresh`). -/
structure GuardOutcome where
  allowed : Bool
  header : Option AccessClaims
  cookie : CookieAction
  refreshAttempts : Nat
  rotateCalls : Nat
deriving DecidableEq

/-- The part of a `GuardOutcome` the client can observe (the HTTP status,
the request's bearer header, the cookie) — the internal counters are not
client-visible. -/
def GuardOutcome.visible (g : GuardOutcome) : Bool × Option AccessClaims × CookieAction :=
  (g.allowed, g.header, g.cookie)

/-- `AutoRefreshGuard.canActivate` for one request, with the outcome of the
Rotation Protocol call it would make abstracted as `rotOutcome` (the guard's
`performRefresh` catches every rotation error and returns `null`):
* no bearer header → pass through;
* `verify` ok → pass through;
* any verify error other than `TokenExpiredError` → pass through;
* `TokenExpiredError` → one refresh attempt: missing cookie fails it without
  a rotation call; otherwise one rotation call whose success rewrites the
  bearer header and sets the new refresh cookie, and whose failure (any
  error) clears the cookie; a failed attempt clears the cookie and throws. -/
def autoRefreshCanActivate (bearer : Option AccessTok) (now : Nat)
    (cookie : Option RefreshTok) (rotOutcome : Except RotateError RotatePair) :
    GuardOutcome :=
  match bearer with
  | none =>
      { allowed := true, header := none, cookie := .unchanged
        refreshAttempts := 0, rotateCalls := 0 }
  | some t =>
      match verifyAccess t now with
      | .ok =>
          { allowed := true, header := none, cookie := .unchanged
            refreshAttempts := 0, rotateCalls := 0 }
      | .invalidSig =>
          { allowed := true, header := none, cookie := .unchanged
            refreshAttempts := 0, rotateCalls := 0 }
      | .expired =>
          match cookie with
          | none =>
              { allowed := false, header := none, cookie := .cleared
                refreshAttempts := 1, rotateCalls := 0 }
          | some _ =>
              match rotOutcome with
              | .ok pair =>
                  { allowed := true, header := some pair.access
                    cookie := .setTo pair.refresh
                    refreshAttempts := 1, rotateCalls := 1 }
              | .error _ =>
                  { allowed := false, header := none, cookie := .cleared
                    refreshAttempts := 1, rotateCalls := 1 }

/-! ## Single-flight map (`refreshPromises`)

In the source, `refreshTokenIfNeeded` reads `refreshPromises.get(refreshKey)`
and, when absent, calls `performRefresh` and `refreshPromises.set(...)` with
no `await` in between, so on the single-threaded event loop each arrival's
check-then-register is one atomic step. `flightArrive` is that step for one
request whose dedup key is the (shared) key of the map entry; `flightSettle`
is the `refreshPromise.finally(() => this.refreshPromises.delete(refreshKey))`
handler, which runs whether the promise fulfilled or rejected. -/

/-- State of the `refreshPromises` entry for one dedup key: the registered
in-flight promise (identified by a numeral), and how many `performRefresh`
calls (Rotation Protocol invocations) have been started so far. -/
structure FlightState where
  inflight : Option Nat
  rotations : Nat
deriving DecidableEq

/-- One request reaching `refreshTokenIfNeeded` with this key: reuse the
registered promise, or start rotation number `s.rotations + 1`, register it
under `fresh`, and await it. Returns the new state and the promise this
request awaits. -/
def flightArrive (s : FlightState) (fresh : Nat) : FlightState × Nat :=
  match s.inflight with
  | some p => (s, p)
  | none => ({ inflight := some fresh, rotations := s.rotations + 1 }, fresh)

/-- The promise settles (with success or failure — `outcome` is ignored, as
`finally` runs either way): the map entry is deleted. -/
def flightSettle (s : FlightState) (outcome : Bool) : FlightState :=
  let _ := outcome
  { s with inflight := none }

/-- `k` requests with the same key arriving while none of them has settled:
fold `flightArrive` over them, collecting the promise each awaits. Fresh
promise identifiers are drawn from `c, c+1, …`. -/
def flightArrivals (s : FlightState) (c : Nat) : Nat → FlightState × List Nat
  | 0 => (s, [])
  | k + 1 =>
      let (s1, p) := flightArrive s c
      let (s2, ps) := flightArrivals s1 (c + 1) k
      (s2, p :: ps)

/-! ## Concrete scenario constants used by witnesses and counterexamples -/

/-- An empty role/permission database. -/
def emptyDb : RolesDb := ⟨[], [], [], []⟩

/-- A refresh token of subject `"u"`, issued at 0, expiring at 100, with a
good signature. -/
def exTok : RefreshTok := ⟨"u", "refresh", 0, 100, true⟩

/-- The ledger record backing `exTok` (bcrypt hash of its plaintext,
unrevoked, record expiry 100). -/
def exRec : RefreshTokenRecord := ⟨1, "u", exTok, 100, none⟩

/-- A distinct refresh token of the same subject (issued at 1). -/
def exTok2 : RefreshTok := ⟨"u", "refresh", 1, 100, true⟩

/-- A refresh token of `"u"` whose signature is bad. -/
def exTokBadSig : RefreshTok := ⟨"u", "refresh", 0, 100, false⟩

/-- A refresh token of `"u"` that is already expired at time 10 (exp 5),
with a good signature. -/
def exTokExpired : RefreshTok := ⟨"u", "refresh", 0, 5, true⟩

/-- A ledger whose only record is already revoked (at time 5) and backs
`exTok2`. -/
def exLedgerRevoked : Ledger := [⟨1, "u", exTok2, 100, some 5⟩]

/-- A ledger whose only record is active and backs `exTokExpired`. -/
def exLedgerExpiredTok : Ledger := [⟨1, "u", exTokExpired, 100, none⟩]

/-- A claims database in which permission `"A"` exists but subject `"u"` has
no role (so the live resolution of `"u"` is empty). -/
def exDbNoRoles : RolesDb := ⟨[], [⟨1, "A"⟩], [], []⟩

/-- A database assigning subject `"u"` one role carrying permission `"A"`. -/
def exDbRoleA : RolesDb := ⟨[⟨1, "admin"⟩], [⟨1, "A"⟩], [⟨"u", 1⟩], [⟨1, 1⟩]⟩

/-- An expired access token of `"u"` with a good signature (exp 5). -/
def exAccessExpired : AccessTok := ⟨⟨"u", [], [], 0, 5⟩, true⟩

/-- An access token of `"u"` with a bad signature. -/
def exAccessBadSig : AccessTok := ⟨⟨"u", [], [], 0, 100⟩, false⟩

/-- The rotation-call context of the first concrete rotation: time 10, fresh
record id 2, access TTL 1, refresh TTL 50. -/
def exCtx1 : RotateCtx := ⟨10, 2, 1, 50⟩

/-- The context of the second concrete rotation: time 11, fresh record id 3. -/
def exCtx2 : RotateCtx := ⟨11, 3, 1, 50⟩

/-! ## Supporting lemmas -/

theorem mem_findActiveTokens {l : Ledger} {uid : String} {now : Nat} {r : RefreshTokenRecord} :
    r ∈ findActiveTokens l uid now ↔
      r ∈ l ∧ r.user_id = uid ∧ r.revoked_at = none ∧ now < r.expires_at := by
  simp [findActiveTokens, List.mem_filter]

theorem matchActive_eq_some {s : List RefreshTokenRecord} {tok : RefreshTok}
    {m : RefreshTokenRecord} (h : matchActive s tok = some m) :
    m ∈ s ∧ m.token_hash = tok :=
  ⟨List.mem_of_find?_eq_some h, by simpa using List.find?_some h⟩

theorem matchActive_eq_none {s : List RefreshTokenRecord} {tok : RefreshTok} :
    matchActive s tok = none ↔ ∀ r ∈ s, r.token_hash ≠ tok := by
  simp [matchActive, List.find?_eq_none]

theorem mem_foldl_addUnique {l : List String} {acc : List String} {x : String} :
    x ∈ l.foldl addUnique acc ↔ x ∈ acc ∨ x ∈ l := by
  induction l generalizing acc with
  | nil => simp
  | cons a t ih =>
      by_cases ha : a ∈ acc
      · simp only [List.foldl_cons, addUnique, ha, if_pos, ih, List.mem_cons]
        constructor
        · rintro (h | h)
          · exact .inl h
          · exact .inr (.inr h)
        · rintro (h | h | h)
          · exact .inl h
          · exact .inl (h ▸ ha)
          · exact .inr h
      · simp only [List.foldl_cons, addUnique, ha, if_neg, ih, List.mem_append,
          List.mem_singleton, List.mem_cons, not_false_iff]
        tauto

theorem find?_key_iff {α κ : Type} [DecidableEq κ] {l : List α} {key : α → κ}
    (hnd : (l.map key).Nodup) (c : κ) (r : α) :
    l.find? (fun x => key x = c) = some r ↔ r ∈ l ∧ key r = c := by
  constructor
  · intro h
    refine ⟨List.mem_of_find?_eq_some h, ?_⟩
    simpa using List.find?_some h
  · rintro ⟨hr, hkey⟩
    have hsome : (l.find? (fun x => key x = c)).isSome := by
      rw [List.find?_isSome]
      exact ⟨r, hr, by simpa using hkey⟩
    obtain ⟨r2, hr2⟩ := Option.isSome_iff_exists.mp hsome
    have hr2mem : r2 ∈ l := List.mem_of_find?_eq_some hr2
    have hr2key : key r2 = c := by simpa using List.find?_some hr2
    have : r2 = r := List.inj_on_of_nodup_map hnd hr2mem hr (hr2key.trans hkey.symm)
    rw [hr2, this]

/-! ## Claim theorems -/

/-- C7: the Permission Gate authorizes the caller iff every permission in the
handler's declared `requiredPermissions` is contained in the caller's
permission set (AND semantics), in both guard variants; an absent declaration
imposes no restriction; and in particular a caller holding `{A, B}` passes a
handler requiring `{A, B}` or `{A}` and is denied for `{A, C}`. -/
theorem permission_gate_and_semantics :
    (∀ (claims : List String), permissionsGuardToken none claims = true)
    ∧ (∀ (db : RolesDb) (uid : String), permissionsGuardDb none db uid = true)
    ∧ (∀ (req claims : List String),
        permissionsGuardToken (some req) claims = true ↔ ∀ p ∈ req, p ∈ claims)
    ∧ (∀ (req : List String) (db : RolesDb) (uid : String),
        permissionsGuardDb (some req) db uid = true ↔
          ∀ p ∈ req, p ∈ dbUserPermissionCodes db uid)
    ∧ permissionsGuardToken (some ["A", "B"]) ["A", "B"] = true
    ∧ permissionsGuardToken (some ["A"]) ["A", "B"] = true
    ∧ permissionsGuardToken (some ["A", "C"]) ["A", "B"] = false := by
  refine ⟨fun _ => rfl, fun _ _ => rfl, ?_, ?_, by decide, by decide, by decide⟩
  · intro req claims
    simp [permissionsGuardToken, List.all_eq_true, List.elem_iff]
  · intro req db uid
    simp [permissionsGuardDb, List.all_eq_true, List.elem_iff]

/-- C7 witness: the gate decisions evaluated at the concrete sets named by
the claim, via the iff of the main theorem. -/
theorem permission_gate_and_semantics_witness :
    permissionsGuardToken (some ["A"]) ["A", "B"] = true :=
  (permission_gate_and_semantics.2.2.1 ["A"] ["A", "B"]).mpr (by decide)

/-- C10 (refinement of the two `PermissionsGuard` variants): whenever the
verified token's `permissions` claim and the live DB-resolved permission set
agree as sets, the token-claims guard and the DB-query guard return the same
decision for every handler; and when the DB set has drifted from the claims
(here: the role was removed after issuance), the decisions can differ. -/
theorem permissions_guard_variants_agree :
    (∀ (req : Option (List String)) (db : RolesDb) (uid : String) (claims : List String),
        (∀ p : String, p ∈ claims ↔ p ∈ dbUserPermissionCodes db uid) →
        permissionsGuardToken req claims = permissionsGuardDb req db uid)
    ∧ (permissionsGuardToken (some ["A"]) ["A"] = true
        ∧ permissionsGuardDb (some ["A"]) exDbNoRoles "u" = false) := by
  constructor
  · intro req db uid claims h
    cases req with
    | none => rfl
    | some req =>
        simp only [permissionsGuardToken, permissionsGuardDb]
        cases hT : req.all (fun p => claims.contains p) with
        | true =>
            symm
            rw [List.all_eq_true] at hT ⊢
            intro p hp
            have := hT p hp
            rw [List.elem_iff] at this ⊢
            exact (h p).mp this
        | false =>
            symm
            rw [Bool.eq_false_iff] at hT ⊢
            intro hab
            apply hT
            rw [List.all_eq_true] at hab ⊢
            intro p hp
            have := hab p hp
            rw [List.elem_iff] at this ⊢
            exact (h p).mpr this
  · exact ⟨by decide, by decide⟩

/-- C10 witness: instantiating the agreement at a database where subject
`"u"` holds permission `"A"` through its one role and an access token
carrying exactly that claim. -/
theorem permissions_guard_variants_agree_witness :
    permissionsGuardToken (some ["A"]) ["A"] = permissionsGuardDb (some ["A"]) exDbRoleA "u" :=
  permissions_guard_variants_agree.1 (some ["A"]) exDbRoleA "u" ["A"] (by
    have h : dbUserPermissionCodes exDbRoleA "u" = ["A"] := by decide
    intro p
    rw [h])

/-- C6: the Auto-Refresh Interceptor's decision is a function of the
access-token verification outcome — a missing bearer token or one with an
invalid signature passes through unchanged with no refresh attempt; a token
with a valid signature but past expiry triggers exactly one refresh attempt;
and every failed refresh attempt (missing cookie, or any rotation error)
yields the same client-visible outcome: `Unauthorized` with the refresh
cookie cleared, identical across failure reasons. -/
theorem auto_refresh_decision :
    (∀ (now : Nat) (cookie : Option RefreshTok) (rot : Except RotateError RotatePair),
        autoRefreshCanActivate none now cookie rot =
          { allowed := true, header := none, cookie := .unchanged
            refreshAttempts := 0, rotateCalls := 0 })
    ∧ (∀ (t : AccessTok) (now : Nat) (cookie : Option RefreshTok)
          (rot : Except RotateError RotatePair), t.sigOk = false →
        autoRefreshCanActivate (some t) now cookie rot =
          { allowed := true, header := none, cookie := .unchanged
            refreshAttempts := 0, rotateCalls := 0 })
    ∧ (∀ (t : AccessTok) (now : Nat) (cookie : Option RefreshTok)
          (rot : Except RotateError RotatePair),
        t.sigOk = true → t.claims.exp ≤ now →
        (autoRefreshCanActivate (some t) now cookie rot).refreshAttempts = 1)
    ∧ (∀ (t : AccessTok) (now : Nat) (rt : RefreshTok) (e : RotateError),
        t.sigOk = true → t.claims.exp ≤ now →
        (autoRefreshCanActivate (some t) now (some rt) (.error e)).visible =
          (false, none, .cleared))
    ∧ (∀ (t : AccessTok) (now : Nat) (rot : Except RotateError RotatePair),
        t.sigOk = true → t.claims.exp ≤ now →
        (autoRefreshCanActivate (some t) now none rot).visible =
          (false, none, .cleared))
    ∧ (∀ (t : AccessTok) (now : Nat) (rt : RefreshTok) (pair : RotatePair),
        t.sigOk = true → t.claims.exp ≤ now →
        autoRefreshCanActivate (some t) now (some rt) (.ok pair) =
          { allowed := true, header := some pair.access, cookie := .setTo pair.refresh
            refreshAttempts := 1, rotateCalls := 1 }) := by
  refine ⟨fun _ _ _ => rfl, ?_, ?_, ?_, ?_, ?_⟩
  · intro t now cookie rot h
    simp [autoRefreshCanActivate, verifyAccess, h]
  · intro t now cookie rot hs he
    cases cookie <;> cases rot <;>
      simp [autoRefreshCanActivate, verifyAccess, hs, he]
  · intro t now rt e hs he
    simp [autoRefreshCanActivate, verifyAccess, hs, he, GuardOutcome.visible]
  · intro t now rot hs he
    cases rot <;> simp [autoRefreshCanActivate, verifyAccess, hs, he, GuardOutcome.visible]
  · intro t now rt pair hs he
    simp [autoRefreshCanActivate, verifyAccess, hs, he]

/-- C6 witness: the concrete expired access token with a good signature and
a failed rotation yields the uniform `Unauthorized`-with-cleared-cookie
outcome, and the bad-signature token passes through. -/
theorem auto_refresh_decision_witness :
    (autoRefreshCanActivate (some exAccessExpired) 10 (some exTok)
        (.error .reuseDetected)).visible = (false, none, .cleared)
    ∧ autoRefreshCanActivate (some exAccessBadSig) 10 (some exTok)
        (.error .reuseDetected) =
      { allowed := true, header := none, cookie := .unchanged
        refreshAttempts := 0, rotateCalls := 0 } :=
  ⟨auto_refresh_decision.2.2.2.1 exAccessExpired 10 exTok .reuseDetected (by decide) (by decide),
   auto_refresh_decision.2.1 exAccessBadSig 10 (some exTok) (.error .reuseDetected) (by decide)⟩

theorem flightArrivals_inflight (p n c : Nat) :
    ∀ k, flightArrivals { inflight := some p, rotations := n } c k =
      ({ inflight := some p, rotations := n }, List.replicate k p) := by
  intro k
  induction k generalizing c with
  | zero => rfl
  | succ k ih =>
      simp [flightArrivals, flightArrive, ih, List.replicate_succ]

/-- C4 (single-flight): from an idle in-flight map, `k ≥ 1` requests with the
same dedup key arriving before the rotation settles start exactly one
Rotation Protocol call (`rotations` grows by exactly one), every one of the
`k` requests awaits that same promise, and once the promise settles — with
success or failure alike — the map entry is removed. -/
theorem single_flight_one_rotation (n c k : Nat) (hk : 0 < k) :
    (flightArrivals { inflight := none, rotations := n } c k).1.rotations = n + 1
    ∧ (flightArrivals { inflight := none, rotations := n } c k).2 = List.replicate k c
    ∧ ∀ outcome : Bool,
        (flightSettle (flightArrivals { inflight := none, rotations := n } c k).1
          outcome).inflight = none := by
  cases k with
  | zero => exact absurd hk (by simp)
  | succ k =>
      have hstep : flightArrivals { inflight := none, rotations := n } c (k + 1) =
          ({ inflight := some c, rotations := n + 1 }, List.replicate (k + 1) c) := by
        simp [flightArrivals, flightArrive, flightArrivals_inflight, List.replicate_succ]
      rw [hstep]
      exact ⟨rfl, rfl, fun _ => rfl⟩

/-- C4 witness: three concurrent requests produce one rotation, all three
await promise 5, and settling empties the map. -/
theorem single_flight_one_rotation_witness :
    (flightArrivals { inflight := none, rotations := 0 } 5 3).1.rotations = 0 + 1
    ∧ (flightArrivals { inflight := none, rotations := 0 } 5 3).2 = List.replicate 3 5
    ∧ (flightSettle (flightArrivals { inflight := none, rotations := 0 } 5 3).1
        false).inflight = none :=
  ⟨(single_flight_one_rotation 0 5 3 (by decide)).1,
   (single_flight_one_rotation 0 5 3 (by decide)).2.1,
   (single_flight_one_rotation 0 5 3 (by decide)).2.2 false⟩

/-- C3: a presented token whose signature does not verify under the refresh
secret, or whose decoded `type` claim is not `"refresh"`, makes
`rotateRefreshToken` throw the invalid-token `UnauthorizedException` before
any prisma call: no ledger operation is performed (no reuse detection) and
the ledger is returned unchanged. -/
theorem rotate_invalid_token_no_ledger_access (l : Ledger) (db : RolesDb)
    (tok : RefreshTok) (ctx : RotateCtx)
    (h : tok.sigOk = false ∨ tok.typ ≠ "refresh") :
    ((rotateRefreshToken l db tok ctx).result = .error .invalidToken
      ∨ (rotateRefreshToken l db tok ctx).result = .error .invalidTokenType)
    ∧ (rotateRefreshToken l db tok ctx).ledger = l
    ∧ (rotateRefreshToken l db tok ctx).ops = [] := by
  by_cases hv : refreshVerifies tok ctx.now = true
  · have hsig : tok.sigOk = true := by
      have := hv
      unfold refreshVerifies at this
      exact (Bool.and_eq_true _ _).mp this |>.1
    have hty : tok.typ ≠ "refresh" := by
      rcases h with h | h
      · rw [hsig] at h; cases h
      · exact h
    refine ⟨.inr ?_, ?_, ?_⟩ <;> simp [rotateRefreshToken, hv, hty]
  · refine ⟨.inl ?_, ?_, ?_⟩ <;> simp [rotateRefreshToken, hv]

/-- C3 witness: the bad-signature token is rejected with the ledger and the
operation trace untouched. -/
theorem rotate_invalid_token_no_ledger_access_witness :
    ((rotateRefreshToken [exRec] emptyDb exTokBadSig exCtx1).result = .error .invalidToken
      ∨ (rotateRefreshToken [exRec] emptyDb exTokBadSig exCtx1).result =
          .error .invalidTokenType)
    ∧ (rotateRefreshToken [exRec] emptyDb exTokBadSig exCtx1).ledger = [exRec]
    ∧ (rotateRefreshToken [exRec] emptyDb exTokBadSig exCtx1).ops = [] :=
  rotate_invalid_token_no_ledger_access [exRec] emptyDb exTokBadSig exCtx1 (.inl (by decide))

/-- C2 counterexample: the reuse-detection `updateMany` of
`rotateRefreshToken` filters on `user_id` only, so a record of the subject
that was already revoked at time 5 has its `revoked_at` overwritten to the
rotation time 10 — `revokedAt` is not written at most once. The presented
token verifies (good signature, `type = "refresh"`, not expired) but matches
no active record, which is exactly the reuse-detection path. -/
theorem rotate_reuse_overwrites_revoked_at :
    exLedgerRevoked.map (fun r => r.revoked_at) = [some 5]
    ∧ (rotateRefreshToken exLedgerRevoked emptyDb exTok ⟨10, 99, 1, 50⟩).result =
        .error .reuseDetected
    ∧ ((rotateRefreshToken exLedgerRevoked emptyDb exTok ⟨10, 99, 1, 50⟩).ledger).map
        (fun r => r.revoked_at) = [some 10] := by
  refine ⟨by decide, by decide, by decide⟩

/-- C2 as amended: `revokeAllUserTokens` and `revokeRefreshToken` never
overwrite a non-null `revoked_at` (their queries filter to active records),
but the reuse-detection path of `rotateRefreshToken` sets `revoked_at := now`
on **every** record of the subject, already-revoked ones included. -/
theorem revoked_at_write_discipline :
    (∀ (l : Ledger) (uid : String) (now i t0 : Nat),
        (l[i]?).map (fun r => r.revoked_at) = some (some t0) →
        ((revokeAllUserTokens l uid now)[i]?).map (fun r => r.revoked_at) = some (some t0))
    ∧ (∀ (l : Ledger) (tok : RefreshTok) (now i t0 : Nat),
        (l.map RefreshTokenRecord.id).Nodup →
        (l[i]?).map (fun r => r.revoked_at) = some (some t0) →
        ((revokeRefreshToken l tok now)[i]?).map (fun r => r.revoked_at) = some (some t0))
    ∧ (∀ (l : Ledger) (db : RolesDb) (tok : RefreshTok) (ctx : RotateCtx),
        refreshVerifies tok ctx.now = true → tok.typ = "refresh" →
        matchActive (findActiveTokens l tok.sub ctx.now) tok = none →
        ∀ r ∈ (rotateRefreshToken l db tok ctx).ledger,
          r.user_id = tok.sub → r.revoked_at = some ctx.now) := by
  refine ⟨?_, ?_, ?_⟩
  · intro l uid now i t0 h
    obtain ⟨r, hr, hrev⟩ : ∃ r, l[i]? = some r ∧ r.revoked_at = some t0 := by
      cases hli : l[i]? with
      | none => rw [hli] at h; cases h
      | some r => rw [hli] at h; exact ⟨r, rfl, by simpa using h⟩
    have hfix : (revokeAllUserTokens l uid now)[i]? = some r := by
      unfold revokeAllUserTokens revokeAllActiveRows
      rw [List.getElem?_map, hr]
      simp [hrev]
    rw [hfix]
    simp [hrev]
  · intro l tok now i t0 hnd h
    obtain ⟨r, hr, hrev⟩ : ∃ r, l[i]? = some r ∧ r.revoked_at = some t0 := by
      cases hli : l[i]? with
      | none => rw [hli] at h; cases h
      | some r => rw [hli] at h; exact ⟨r, rfl, by simpa using h⟩
    unfold revokeRefreshToken
    by_cases hv : refreshVerifies tok now = true
    · simp only [hv, not_true, if_neg, Bool.not_eq_true]
      cases hm : matchActive (l.filter fun x =>
          x.user_id = tok.sub ∧ x.revoked_at = none) tok with
      | none => simp [hr, hrev]
      | some t =>
          have ht := matchActive_eq_some hm
          have htmem : t ∈ l := (List.mem_filter.mp ht.1).1
          have htactive : t.revoked_at = none := by
            have := (List.mem_filter.mp ht.1).2
            simp at this
            exact this.2
          have hrmem : r ∈ l := by
            obtain ⟨hilen, hget⟩ := List.getElem?_eq_some_iff.mp hr
            exact hget ▸ List.getElem_mem hilen
          have hne : r.id ≠ t.id := by
            intro heq
            have : r = t := List.inj_on_of_nodup_map hnd hrmem htmem heq
            rw [this, htactive] at hrev
            cases hrev
          have hfix : (revokeById l t.id now)[i]? = some r := by
            rw [revokeById, List.getElem?_map, hr]
            simp [hne]
          simp only [if_false]
          rw [hfix]
          simp [hrev]
    · simp [hv, hr, hrev]
  · intro l db tok ctx hv hty hnm r hrmem hruid
    rw [rotateRefreshToken] at hrmem
    simp only [hv, hty, hnm, not_true, Bool.not_eq_true, ne_eq, not_false_iff,
      if_neg, if_pos, reduceIte] at hrmem
    obtain ⟨r1, hr1mem, hr1to⟩ := List.mem_map.mp hrmem
    by_cases hu : r1.user_id = tok.sub
    · rw [← hr1to]
      simp [hu]
    · rw [← hr1to] at hruid
      simp [hu] at hruid

/-- C9 counterexample: `revokeRefreshToken` verifies with expiry enforced
(no `ignoreExpiration`), so a refresh token with a valid signature that is
past its `exp` (5 ≤ 10) is caught and silently ignored — the matching active
record of its subject is **not** revoked, contradicting the claim that
logout ignores expiry. -/
theorem revoke_expired_token_noop :
    exTokExpired.sigOk = true
    ∧ exTokExpired.exp ≤ 10
    ∧ exLedgerExpiredTok.map (fun r => (r.token_hash, r.revoked_at)) = [(exTokExpired, none)]
    ∧ revokeRefreshToken exLedgerExpiredTok exTokExpired 10 = exLedgerExpiredTok := by
  refine ⟨by decide, by decide, by decide, by decide⟩

/-- C9 as amended: `revokeRefreshToken` enforces expiry during verification —
a token that fails `jwt.verify` (bad signature **or expired**) is a silent
no-op, exactly like a missing or unparseable token; only a verifying
(unexpired, well-signed) token revokes, and then it sets `revokedAt = now` on
the record matching it; with no matching non-revoked record the call is
again a no-op. -/
theorem revoke_refresh_token_behavior :
    (∀ (l : Ledger) (tok : RefreshTok) (now : Nat),
        refreshVerifies tok now = false → revokeRefreshToken l tok now = l)
    ∧ (∀ (l : Ledger) (tok : RefreshTok) (now : Nat) (m : RefreshTokenRecord),
        refreshVerifies tok now = true →
        matchActive (l.filter fun r => r.user_id = tok.sub ∧ r.revoked_at = none) tok
          = some m →
        ∀ r ∈ revokeRefreshToken l tok now, r.id = m.id → r.revoked_at = some now)
    ∧ (∀ (l : Ledger) (tok : RefreshTok) (now : Nat),
        refreshVerifies tok now = true →
        matchActive (l.filter fun r => r.user_id = tok.sub ∧ r.revoked_at = none) tok
          = none →
        revokeRefreshToken l tok now = l) := by
  refine ⟨?_, ?_, ?_⟩
  · intro l tok now h
    simp [revokeRefreshToken, h]
  · intro l tok now m hv hm r hrmem hid
    rw [revokeRefreshToken] at hrmem
    simp only [hv, hm, not_true, Bool.not_eq_true, if_false] at hrmem
    obtain ⟨r1, hr1mem, hr1to⟩ := List.mem_map.mp hrmem
    by_cases h1 : r1.id = m.id
    · rw [← hr1to]
      simp [h1]
    · rw [← hr1to] at hid
      simp [h1] at hid
  · intro l tok now hv hm
    rw [revokeRefreshToken]
    simp only [hv, hm, not_true, Bool.not_eq_true, if_false]

/-- C9 amended witness: the expired token is a no-op, and the unexpired
matching token revokes its record. -/
theorem revoke_refresh_token_behavior_witness :
    revokeRefreshToken exLedgerExpiredTok exTokExpired 10 = exLedgerExpiredTok
    ∧ (RefreshTokenRecord.mk 1 "u" exTok 100 (some 10)).revoked_at = some 10 :=
  ⟨revoke_refresh_token_behavior.1 exLedgerExpiredTok exTokExpired 10 (by decide),
   revoke_refresh_token_behavior.2.1 [exRec] exTok 10 exRec (by decide) (by decide)
     (RefreshTokenRecord.mk 1 "u" exTok 100 (some 10)) (by decide) (by decide)⟩

/-- C2 amended witness: the already-revoked record (revoked at 5) keeps its
timestamp through `revokeAllUserTokens` at time 10. -/
theorem revoked_at_write_discipline_witness :
    ((revokeAllUserTokens exLedgerRevoked "u" 10)[0]?).map (fun r => r.revoked_at) =
      some (some 5) :=
  revoked_at_write_discipline.1 exLedgerRevoked "u" 10 0 5 (by decide)

/-- C5: the "revoke matched record, then issue new pair" step is **not** an
atomic unit against the ledger — the source runs `findMany`, `update` and
`create` as separate non-transactional prisma calls. In the interleaving
`A.findMany; B.findMany; A.update; A.create; B.update; B.create` of two
rotation attempts presenting the same refresh token:
* both reads observe the backing record active (first two conjuncts),
* each attempt, from what it observed, takes the success path and issues a
  new pair (next two conjuncts: `rotateRefreshToken` succeeds from the state
  both snapshots were taken in),
* replaying B's two writes (revoke by the matched id at B's clock, insert
  B's fresh record) on top of A's completed rotation leaves **two** active
  refresh records for the subject — both attempts issued, which the
  spec's §5 invariant ("exactly one must win the revoke and the other must
  fall into the reuse-detected path") forbids. -/
theorem rotation_revoke_issue_not_atomic :
    matchActive (findActiveTokens [exRec] "u" 10) exTok = some exRec
    ∧ matchActive (findActiveTokens [exRec] "u" 11) exTok = some exRec
    ∧ rotationSucceeded (rotateRefreshToken [exRec] emptyDb exTok exCtx1) = true
    ∧ rotationSucceeded (rotateRefreshToken [exRec] emptyDb exTok exCtx2) = true
    ∧ (findActiveTokens
        (insertRecord
          (revokeById ((rotateRefreshToken [exRec] emptyDb exTok exCtx1).ledger)
            exRec.id exCtx2.now)
          ⟨exCtx2.freshRecId, "u", signRefreshToken "u" exCtx2,
            exCtx2.now + exCtx2.refreshTtl, none⟩)
        "u" 12).length = 2 := by
  refine ⟨by decide, by decide, by decide, by decide, by decide⟩

theorem mem_permissionsForSpec_iff (db : RolesDb) (uid p : String) :
    p ∈ permissionsForSpec db uid ↔
      ∃ ur ∈ db.user_roles, ur.user_id = uid ∧
      ∃ role ∈ db.roles, ur.role_id = role.id ∧
      ∃ rp ∈ db.role_permissions, rp.role_id = role.id ∧
      ∃ pm ∈ db.permissions, rp.permission_id = pm.id ∧ pm.code = p := by
  unfold permissionsForSpec
  simp only [List.mem_flatMap, List.mem_filter, List.mem_map, List.any_eq_true,
    decide_eq_true_eq]
  constructor
  · rintro ⟨role, ⟨hrmem, ur, hurmem, huid, hrole⟩, pm, ⟨hpmem, rp, hrpmem, hrprole, hrpperm⟩,
      hcode⟩
    exact ⟨ur, hurmem, huid, role, hrmem, hrole, rp, hrpmem, hrprole, pm, hpmem, hrpperm, hcode⟩
  · rintro ⟨ur, hurmem, huid, role, hrmem, hrole, rp, hrpmem, hrprole, pm, hpmem, hrpperm, hcode⟩
    exact ⟨role, ⟨hrmem, ur, hurmem, huid, hrole⟩, pm, ⟨hpmem, rp, hrpmem, hrprole, hrpperm⟩,
      hcode⟩

theorem mem_permissionsOfUser_iff (db : RolesDb) (uid p : String)
    (hndR : (db.roles.map RoleRec.id).Nodup)
    (hndP : (db.permissions.map PermissionRec.id).Nodup)
    (hcode : ∀ pm ∈ db.permissions, pm.code ≠ "") :
    p ∈ permissionsOfUser db uid ↔
      ∃ ur ∈ db.user_roles, ur.user_id = uid ∧
      ∃ role ∈ db.roles, ur.role_id = role.id ∧
      ∃ rp ∈ db.role_permissions, rp.role_id = role.id ∧
      ∃ pm ∈ db.permissions, rp.permission_id = pm.id ∧ pm.code = p := by
  unfold permissionsOfUser
  rw [mem_foldl_addUnique]
  simp only [List.not_mem_nil, false_or, List.mem_flatMap]
  unfold userRolesJoined
  simp only [List.mem_filterMap, List.mem_filter, Option.map_eq_some',
    decide_eq_true_eq]
  constructor
  · rintro ⟨x, ⟨ur, ⟨hurmem, huid⟩, role, hfind, hx⟩, hpx⟩
    have hroleinfo : role ∈ db.roles ∧ role.id = ur.role_id :=
      (find?_key_iff hndR ur.role_id role).mp hfind
    rw [← hx] at hpx
    simp only [List.mem_filterMap, List.mem_filter, decide_eq_true_eq] at hpx
    obtain ⟨rp, ⟨hrpmem, hrprole⟩, hmatch⟩ := hpx
    cases hf : db.permissions.find? (fun q => q.id = rp.permission_id) with
    | none => rw [hf] at hmatch; cases hmatch
    | some pm =>
        rw [hf] at hmatch
        have hpminfo : pm ∈ db.permissions ∧ pm.id = rp.permission_id :=
          (find?_key_iff hndP rp.permission_id pm).mp hf
        by_cases hc : pm.code = ""
        · simp [hc] at hmatch
        · have hpcode : pm.code = p := by simpa [hc] using hmatch
          exact ⟨ur, hurmem, huid, role, hroleinfo.1, hroleinfo.2.symm,
            rp, hrpmem, hrprole, pm, hpminfo.1, hpminfo.2.symm, hpcode⟩
  · rintro ⟨ur, hurmem, huid, role, hrmem, hrole, rp, hrpmem, hrprole, pm, hpmem, hrpperm,
      hpcode⟩
    have hfindR : db.roles.find? (fun x => x.id = ur.role_id) = some role :=
      (find?_key_iff hndR ur.role_id role).mpr ⟨hrmem, hrole.symm⟩
    have hfindP : db.permissions.find? (fun q => q.id = rp.permission_id) = some pm :=
      (find?_key_iff hndP rp.permission_id pm).mpr ⟨hpmem, hrpperm.symm⟩
    refine ⟨(role, (db.role_permissions.filter (fun x => x.role_id = role.id)).filterMap
        (fun x => match db.permissions.find? (fun q => q.id = x.permission_id) with
          | some q => if q.code = "" then none else some q.code
          | none => none)),
      ⟨ur, ⟨hurmem, huid⟩, role, hfindR, rfl⟩, ?_⟩
    simp only [List.mem_filterMap, List.mem_filter, decide_eq_true_eq]
    refine ⟨rp, ⟨hrpmem, hrprole⟩, ?_⟩
    rw [hfindP]
    simp only [hpcode]
    simp [hpcode ▸ hcode pm hpmem]

/-- C8: a successful rotation re-resolves the subject's roles and permission
set live from the role tables at rotation time — the new access token's
`permissions` claim is exactly `permissionsOfUser` of the current database
(and its membership coincides with the spec's union over the subject's
roles, under the well-formedness assumptions that role and permission ids
are unique and permission codes are non-empty strings); a subject with no
role resolves to the empty set. The rotation result is a function of the
current database only, never of the consumed token's claims. -/
theorem rotation_reresolves_permissions :
    (∀ (l : Ledger) (db : RolesDb) (tok : RefreshTok) (ctx : RotateCtx) (pair : RotatePair),
        (rotateRefreshToken l db tok ctx).result = .ok pair →
        pair.access.permissions = permissionsOfUser db tok.sub
          ∧ pair.access.roles = rolesOfUser db tok.sub)
    ∧ (∀ (db : RolesDb) (uid p : String),
        (db.roles.map RoleRec.id).Nodup →
        (db.permissions.map PermissionRec.id).Nodup →
        (∀ pm ∈ db.permissions, pm.code ≠ "") →
        (p ∈ permissionsOfUser db uid ↔ p ∈ permissionsForSpec db uid))
    ∧ (∀ (db : RolesDb) (uid : String),
        (∀ ur ∈ db.user_roles, ur.user_id ≠ uid) → permissionsOfUser db uid = []) := by
  refine ⟨?_, ?_, ?_⟩
  · intro l db tok ctx pair h
    by_cases hv : refreshVerifies tok ctx.now = true
    · by_cases hty : tok.typ = "refresh"
      · cases hm : matchActive (findActiveTokens l tok.sub ctx.now) tok with
        | none =>
            rw [rotateRefreshToken] at h
            simp only [hv, hty, hm, not_true, Bool.not_eq_true, ne_eq, not_false_iff,
              if_false, if_pos] at h
            exact Except.noConfusion h
        | some m =>
            rw [rotateRefreshToken] at h
            simp only [hv, hty, hm, not_true, Bool.not_eq_true, ne_eq, not_false_iff,
              if_false, if_pos, Except.ok.injEq] at h
            rw [← h]
            exact ⟨rfl, rfl⟩
      · rw [rotateRefreshToken] at h
        simp [hv, hty] at h
    · rw [rotateRefreshToken] at h
      simp [hv] at h
  · intro db uid p hndR hndP hcode
    rw [mem_permissionsOfUser_iff db uid p hndR hndP hcode, mem_permissionsForSpec_iff]
  · intro db uid h
    unfold permissionsOfUser userRolesJoined
    have hnone : db.user_roles.filter (fun ur => ur.user_id = uid) = [] :=
      List.filter_eq_nil_iff.mpr (fun ur hur => by simpa using h ur hur)
    rw [hnone]
    rfl

/-- C8 witness: in the concrete database assigning `"u"` one role with
permission `"A"`, the code's live resolution and the spec's union coincide
at `"A"`, and the no-role database resolves to the empty set. -/
theorem rotation_reresolves_permissions_witness :
    ("A" ∈ permissionsOfUser exDbRoleA "u" ↔ "A" ∈ permissionsForSpec exDbRoleA "u")
    ∧ permissionsOfUser exDbNoRoles "u" = [] :=
  ⟨rotation_reresolves_permissions.2.1 exDbRoleA "u" "A" (by decide) (by decide) (by decide),
   rotation_reresolves_permissions.2.2 exDbNoRoles "u" (by decide)⟩

theorem rotationSucceeded_of_error {o : RotateOutput} {e : RotateError}
    (h : o.result = .error e) : rotationSucceeded o = false := by
  simp [rotationSucceeded, h]

/-- C1: for an active refresh token `R` of subject `S` backed by record `m`
(the bcrypt scan of the initial ledger matches `m`, and no other record's
hash verifies against `R`), rotation succeeds exactly once: the first call
returns a pair and leaves every record hashing to `R` revoked at its call
time; a second call presenting `R` (still within `R`'s signature validity)
returns `ReuseDetected` and leaves **every** record of `S` — including the
one created by the first rotation — revoked; afterwards no rotation call
presenting any token of `S` can succeed. The hypothesis `R.iat ≠ ctx1.now`
says the first rotation does not mint a JWT with claims identical to `R`
(identical claims would reproduce the identical token string). -/
theorem rotate_succeeds_exactly_once
    (l : Ledger) (db db2 : RolesDb) (R : RefreshTok) (m : RefreshTokenRecord)
    (ctx1 ctx2 : RotateCtx)
    (hsig : R.sigOk = true) (htyp : R.typ = "refresh")
    (hexp1 : ctx1.now < R.exp) (hexp2 : ctx2.now < R.exp)
    (hiat : R.iat ≠ ctx1.now)
    (hm : matchActive (findActiveTokens l R.sub ctx1.now) R = some m)
    (huniq : ∀ r ∈ l, r.token_hash = R → r.id = m.id) :
    rotationSucceeded (rotateRefreshToken l db R ctx1) = true
    ∧ (∀ r ∈ (rotateRefreshToken l db R ctx1).ledger,
        r.token_hash = R → r.revoked_at = some ctx1.now)
    ∧ (rotateRefreshToken (rotateRefreshToken l db R ctx1).ledger db2 R ctx2).result
        = .error .reuseDetected
    ∧ (∀ r ∈ (rotateRefreshToken (rotateRefreshToken l db R ctx1).ledger db2 R ctx2).ledger,
        r.user_id = R.sub → r.revoked_at = some ctx2.now)
    ∧ (∀ (db3 : RolesDb) (T : RefreshTok) (ctx3 : RotateCtx), T.sub = R.sub →
        rotationSucceeded
          (rotateRefreshToken
            (rotateRefreshToken (rotateRefreshToken l db R ctx1).ledger db2 R ctx2).ledger
            db3 T ctx3) = false) := by
  have hv1 : refreshVerifies R ctx1.now = true := by
    unfold refreshVerifies
    rw [hsig]
    simp [hexp1]
  have hv2 : refreshVerifies R ctx2.now = true := by
    unfold refreshVerifies
    rw [hsig]
    simp [hexp2]
  have hres1 : (rotateRefreshToken l db R ctx1).result =
      .ok { access := { sub := R.sub
                        roles := rolesOfUser db R.sub
                        permissions := permissionsOfUser db R.sub
                        iat := ctx1.now
                        exp := ctx1.now + ctx1.accessTtl }
            refresh := signRefreshToken R.sub ctx1 } := by
    rw [rotateRefreshToken]
    simp only [hv1, htyp, hm, not_true, Bool.not_eq_true, ne_eq, not_false_iff,
      if_false, if_pos]
  have hL1 : (rotateRefreshToken l db R ctx1).ledger =
      insertRecord (revokeById l m.id ctx1.now)
        { id := ctx1.freshRecId, user_id := R.sub,
          token_hash := signRefreshToken R.sub ctx1,
          expires_at := ctx1.now + ctx1.refreshTtl, revoked_at := none } := by
    rw [rotateRefreshToken]
    simp only [hv1, htyp, hm, not_true, Bool.not_eq_true, ne_eq, not_false_iff,
      if_false, if_pos]
  have hB : ∀ r ∈ (rotateRefreshToken l db R ctx1).ledger,
      r.token_hash = R → r.revoked_at = some ctx1.now := by
    rw [hL1]
    intro r hr hhash
    rcases List.mem_append.mp hr with hr | hr
    · obtain ⟨r0, hr0mem, hr0to⟩ := List.mem_map.mp hr
      by_cases h0 : r0.id = m.id
      · rw [← hr0to, if_pos h0]
      · rw [← hr0to, if_neg h0] at hhash
        exact absurd (huniq r0 hr0mem hhash) h0
    · rw [List.mem_singleton] at hr
      rw [hr] at hhash
      have hproj : signRefreshToken R.sub ctx1 = R := by simpa using hhash
      have hnow : ctx1.now = R.iat := by
        simpa [signRefreshToken] using congrArg RefreshTok.iat hproj
      exact absurd hnow.symm hiat
  have hnm2 : matchActive
      (findActiveTokens (rotateRefreshToken l db R ctx1).ledger R.sub ctx2.now) R = none := by
    rw [matchActive_eq_none]
    intro r hr hhash
    obtain ⟨hrmem, _, hrev, _⟩ := mem_findActiveTokens.mp hr
    have := hB r hrmem hhash
    rw [this] at hrev
    cases hrev
  have hres2 : (rotateRefreshToken (rotateRefreshToken l db R ctx1).ledger db2 R ctx2).result
      = .error .reuseDetected := by
    rw [rotateRefreshToken]
    simp only [hv2, htyp, hnm2, not_true, Bool.not_eq_true, ne_eq, not_false_iff,
      if_false, if_pos]
  have hL2 : (rotateRefreshToken (rotateRefreshToken l db R ctx1).ledger db2 R ctx2).ledger
      = revokeAllRows (rotateRefreshToken l db R ctx1).ledger R.sub ctx2.now := by
    rw [rotateRefreshToken]
    simp only [hv2, htyp, hnm2, not_true, Bool.not_eq_true, ne_eq, not_false_iff,
      if_false, if_pos]
  have hD : ∀ r ∈ (rotateRefreshToken (rotateRefreshToken l db R ctx1).ledger db2 R ctx2).ledger,
      r.user_id = R.sub → r.revoked_at = some ctx2.now := by
    rw [hL2]
    intro r hr huid
    obtain ⟨r1, hr1mem, hr1to⟩ := List.mem_map.mp hr
    by_cases h1 : r1.user_id = R.sub
    · rw [← hr1to, if_pos h1]
    · rw [← hr1to, if_neg h1] at huid
      exact absurd huid h1
  refine ⟨by simp [rotationSucceeded, hres1], hB, hres2, hD, ?_⟩
  intro db3 T ctx3 hTsub
  by_cases hv3 : refreshVerifies T ctx3.now = true
  · by_cases hty3 : T.typ = "refresh"
    · have hnm3 : matchActive
          (findActiveTokens
            (rotateRefreshToken (rotateRefreshToken l db R ctx1).ledger db2 R ctx2).ledger
            T.sub ctx3.now) T = none := by
        rw [matchActive_eq_none]
        intro r hr _
        obtain ⟨hrmem, hruid, hrev, _⟩ := mem_findActiveTokens.mp hr
        have := hD r hrmem (hruid.trans hTsub)
        rw [this] at hrev
        cases hrev
      refine rotationSucceeded_of_error (e := .reuseDetected) ?_
      rw [rotateRefreshToken]
      simp only [hv3, hty3, hnm3, not_true, Bool.not_eq_true, ne_eq, not_false_iff,
        if_false, if_pos]
    · refine rotationSucceeded_of_error (e := .invalidTokenType) ?_
      rw [rotateRefreshToken]
      simp only [hv3, hty3, not_true, Bool.not_eq_true, ne_eq, not_false_iff,
        if_false, if_pos]
  · refine rotationSucceeded_of_error (e := .invalidToken) ?_
    rw [rotateRefreshToken]
    simp [hv3]

/-- C1 witness: the concrete one-record ledger of subject `"u"`: the first
rotation succeeds and the replay is answered with `ReuseDetected`. -/
theorem rotate_succeeds_exactly_once_witness :
    rotationSucceeded (rotateRefreshToken [exRec] exDbRoleA exTok exCtx1) = true
    ∧ (rotateRefreshToken (rotateRefreshToken [exRec] exDbRoleA exTok exCtx1).ledger
        exDbRoleA exTok exCtx2).result = .error .reuseDetected :=
  ⟨(rotate_succeeds_exactly_once [exRec] exDbRoleA exDbRoleA exTok exRec exCtx1 exCtx2
      (by decide) (by decide) (by decide) (by decide) (by decide) (by decide) (by decide)).1,
   (rotate_succeeds_exactly_once [exRec] exDbRoleA exDbRoleA exTok exRec exCtx1 exCtx2
      (by decide) (by decide) (by decide) (by decide) (by decide) (by decide)
      (by decide)).2.2.1⟩
